import Mathlib

/-!
Shallow embedding of the message-transport reliability layer of
`zynerotech/shared`: the Kafka retry/DLQ processor, the producer and
consumer lifecycle, the Envelope wire format, and the backoff policy
from `ReliabilityConfig`.  Go `time.Duration` values are modelled as
`Int` nanoseconds, Go `int`/`int64` as `Int` or `Nat` (the latter for
fields whose config validation enforces `min=0`), and Go `float64`
values as exact rationals given by an integer numerator/denominator
pair.  Effectful code is modelled as pure functions that return an
explicit trace of the observable events (handler invocations, sleeps,
DLQ publishes, metric updates) next to the returned error value.
-/

namespace Shared

/-- Model of a Go `error` value as it is observed by the retry layer:
its message text, whether a type assertion to `*kafka.RetryableError`
succeeds, and (when it does) the value of its `Retryable` field. -/
structure GoError where
  msg : String
  isRetryableType : Bool
  retryable : Bool
deriving DecidableEq, Repr

/-- Model of `context.Canceled`, the error returned by `ctx.Err()`
after cancellation; it is not a `*RetryableError`. -/
def contextCanceled : GoError :=
  { msg := "context canceled", isRetryableType := false, retryable := false }

/-- Model of `fmt.Errorf("prefixtext: %w", err)`: the wrapped error has
the concatenated text and is no longer a `*RetryableError` under a
direct type assertion (the source uses a type assertion, not
`errors.As`). -/
def wrapGoErr (pre : String) (e : GoError) : GoError :=
  { msg := pre ++ e.msg, isRetryableType := false, retryable := false }

/-- The check in `ProcessWithRetry`:
`if retryableErr, ok := err.(*RetryableError); ok && !retryableErr.Retryable`. -/
def isNonRetryable (e : GoError) : Bool :=
  e.isRetryableType && !e.retryable

/-- One Kafka record header (`kafka.Header`); byte values are modelled
as strings. -/
structure Header where
  key : String
  value : String
deriving DecidableEq, Repr

/-- Model of an IEEE `float64` by its exact rational value as an
integer fraction (every finite `float64` is such a rational); `den` is
kept positive.  Products in `GetRetryBackoffWithJitter` are modelled
exactly; this is faithful whenever the intermediate `float64` products
are exactly representable, which holds for all concrete values used in
the theorems below. -/
structure GoFloat where
  num : Int
  den : Int
deriving DecidableEq, Repr

/-- Model of Go's `time.Duration(f)` conversion applied to the product
`float64(b) * m`: an `int64` conversion truncates toward zero, which
is `Int.tdiv` on the exact fraction. -/
def floatMulTrunc (b : Int) (m : GoFloat) : Int :=
  Int.tdiv (b * m.num) m.den

/-- `ReliabilityConfig` from the Kafka package.  `RetryCount` carries
the config validation `min=0,max=10` and is modelled as `Nat`;
durations are `Int` nanoseconds; circuit-breaker and metrics-toggle
fields are not used by any code modelled here and are omitted. -/
structure ReliabilityConfig where
  RetryCount : Nat
  RetryBackoff : Int
  RetryBackoffMultiplier : GoFloat
  MaxRetryBackoff : Int
  DLQTopic : String
  DLQEnabled : Bool
  DLQRetryHeader : String
  DLQErrorHeader : String
  DLQTimestampHeader : String
deriving DecidableEq, Repr

/-- The loop body of `GetRetryBackoffWithJitter`: iterate
`backoff = time.Duration(float64(backoff) * multiplier)` the given
number of times, capping at `MaxRetryBackoff` and stopping early at the
first step that exceeds the cap (the `break` in the source). -/
def backoffLoop (rc : ReliabilityConfig) : Nat → Int → Int
  | 0, b => b
  | n + 1, b =>
    let b' := floatMulTrunc b rc.RetryBackoffMultiplier
    if rc.MaxRetryBackoff < b' then rc.MaxRetryBackoff
    else backoffLoop rc n b'

/-- `ReliabilityConfig.GetRetryBackoffWithJitter` (the name is the
source's; no jitter is actually applied, growth is deterministic). -/
def ReliabilityConfig.GetRetryBackoffWithJitter (rc : ReliabilityConfig) (attempt : Nat) : Int :=
  backoffLoop rc attempt rc.RetryBackoff

/-- Exact rational power of a `GoFloat`, used only to state the spec's
closed-form `base * multiplier^attempt`. -/
def GoFloat.powNum (m : GoFloat) (a : Nat) : Int := m.num ^ a

/-- Denominator power companion of `GoFloat.powNum`. -/
def GoFloat.powDen (m : GoFloat) (a : Nat) : Int := m.den ^ a

/-- Modelled from the spec's words, for comparison with the source
function: the backoff at attempt `a` is `retry_backoff * multiplier^a`
(converted to whole nanoseconds toward zero) capped at
`max_retry_backoff`. -/
def specBackoffFormula (rc : ReliabilityConfig) (a : Nat) : Int :=
  min (Int.tdiv (rc.RetryBackoff * rc.RetryBackoffMultiplier.powNum a)
        (rc.RetryBackoffMultiplier.powDen a))
      rc.MaxRetryBackoff

/-- Decimal digit value of a character, `none` for non-digits. -/
def readDigit (c : Char) : Option Nat :=
  if '0' ≤ c ∧ c ≤ '9' then some (c.toNat - 48) else none

/-- All-digits accumulator used by the model of `strconv.Atoi`. -/
def digitsToNatAux : List Char → Nat → Option Nat
  | [], acc => some acc
  | c :: rest, acc =>
    match readDigit c with
    | some d => digitsToNatAux rest (acc * 10 + d)
    | none => none

/-- Digit run to a number; the empty run is an error. -/
def digitsToNat : List Char → Option Nat
  | [] => none
  | cs => digitsToNatAux cs 0

/-- Model of `strconv.Atoi`: optional sign then a non-empty digit run
covering the whole string (the `int64` overflow check is not modelled;
all values appearing here are small). -/
def atoi (s : String) : Option Int :=
  match s.data with
  | '+' :: rest => (digitsToNat rest).map Int.ofNat
  | '-' :: rest => (digitsToNat rest).map (fun n => -(n : Int))
  | l => (digitsToNat l).map Int.ofNat

/-- First header with the given key, as Kafka consumers read headers. -/
def headerLookup (hs : List Header) (k : String) : Option String :=
  match hs with
  | [] => none
  | h :: rest => if h.key = k then some h.value else headerLookup rest k

/-- JSON documents, modelling the wire bytes produced and consumed by
the `sonic` JSON codec at the level of parsed values.  A
`json.RawMessage` payload that is a valid JSON blob is represented by
the `Json` value those bytes parse to; `Marshal` embeds it verbatim and
`Unmarshal` hands the embedded value back, so payload bytes round-trip
exactly at this level. -/
inductive Json where
  | null : Json
  | bool (b : Bool) : Json
  | num (n : Int) : Json
  | str (s : String) : Json
  | arr (elems : List Json) : Json
  | obj (fields : List (String × Json)) : Json

/-- Civil UTC date-time at the precision of the RFC3339 wire timestamp
(`time.Time.MarshalJSON` emits RFC3339 with up to nanosecond
fraction, in UTC written with a trailing `Z` as `time.Now().UTC()`
produces). -/
structure DateTime where
  year : Nat
  month : Nat
  day : Nat
  hour : Nat
  minute : Nat
  second : Nat
  nanos : Nat
deriving DecidableEq, Repr

/-- Zero value of `time.Time` as a civil date: January 1 of year 1. -/
def zeroDateTime : DateTime := ⟨1, 1, 1, 0, 0, 0, 0⟩

/-- Gregorian leap-year rule used by `time.Parse` for day-of-month
validation. -/
def isLeapYear (y : Nat) : Bool :=
  y % 4 = 0 && (y % 100 != 0 || y % 400 = 0)

/-- Days in a month, as `time.Parse` validates them. -/
def daysIn (y m : Nat) : Nat :=
  if m = 2 then (if isLeapYear y then 29 else 28)
  else if m = 4 ∨ m = 6 ∨ m = 9 ∨ m = 11 then 30
  else 31

/-- Field ranges accepted by the RFC3339 parse and producible by the
RFC3339 format (a four-digit year, so 0–9999; `time.Time.MarshalJSON`
refuses years outside that range). -/
def validRanges (y mo d h mi s ns : Nat) : Bool :=
  decide (y ≤ 9999) && decide (1 ≤ mo) && decide (mo ≤ 12) &&
  decide (1 ≤ d) && decide (d ≤ daysIn y mo) &&
  decide (h ≤ 23) && decide (mi ≤ 59) && decide (s ≤ 59) &&
  decide (ns ≤ 999999999)

/-- Validity of a `DateTime` for wire purposes. -/
def DateTime.valid (t : DateTime) : Bool :=
  validRanges t.year t.month t.day t.hour t.minute t.second t.nanos

/-- ASCII digit character for a digit value. -/
def digitChar (n : Nat) : Char := Char.ofNat (48 + n)

/-- Fixed-width decimal rendering, most significant digit first. -/
def padDigits : Nat → Nat → List Char
  | 0, _ => []
  | w + 1, v => padDigits w (v / 10) ++ [digitChar (v % 10)]

/-- Drop trailing decimal zeros of a fraction of the given width, as
Go's fractional-second formatting does; returns the remaining width
and value. -/
def stripZeros : Nat → Nat → Nat × Nat
  | 0, v => (0, v)
  | w + 1, v => if v % 10 = 0 then stripZeros w (v / 10) else (w + 1, v)

/-- Fractional-second part of the RFC3339 rendering: absent for zero
nanoseconds, otherwise a dot followed by up to nine digits with
trailing zeros removed. -/
def fracPart (ns : Nat) : List Char :=
  if ns = 0 then []
  else
    let p := stripZeros 9 ns
    '.' :: padDigits p.1 p.2

/-- RFC3339 rendering of a UTC `DateTime` as `time.Time.MarshalJSON`
produces inside the JSON string (nanosecond precision, trailing `Z`). -/
def formatRFC3339 (t : DateTime) : String :=
  ⟨padDigits 4 t.year ++ '-' :: padDigits 2 t.month ++ '-' :: padDigits 2 t.day ++
   'T' :: padDigits 2 t.hour ++ ':' :: padDigits 2 t.minute ++ ':' :: padDigits 2 t.second ++
   fracPart t.nanos ++ ['Z']⟩

/-- Positional two-digit field reader of the RFC3339 parser. -/
def read2 : List Char → Option (Nat × List Char)
  | c1 :: c2 :: rest =>
    match readDigit c1, readDigit c2 with
    | some d1, some d2 => some (d1 * 10 + d2, rest)
    | _, _ => none
  | _ => none

/-- Positional four-digit field reader of the RFC3339 parser. -/
def read4 : List Char → Option (Nat × List Char)
  | c1 :: c2 :: c3 :: c4 :: rest =>
    match readDigit c1, readDigit c2, readDigit c3, readDigit c4 with
    | some d1, some d2, some d3, some d4 =>
      some (((d1 * 10 + d2) * 10 + d3) * 10 + d4, rest)
    | _, _, _, _ => none
  | _ => none

/-- Require one literal character. -/
def expect (c : Char) : List Char → Option (List Char)
  | c' :: rest => if c' = c then some rest else none
  | [] => none

/-- Greedy digit-run reader: value, digit count, and remainder. -/
def readDigits : List Char → Nat → Nat × Nat × List Char
  | [], acc => (acc, 0, [])
  | c :: rest, acc =>
    match readDigit c with
    | some d =>
      let r := readDigits rest (acc * 10 + d)
      (r.1, r.2.1 + 1, r.2.2)
    | none => (acc, 0, c :: rest)

/-- Optional fractional-second field: a dot followed by one to nine
digits scaled to nanoseconds, or nothing.  (Runs longer than nine
digits never occur in the formats modelled here.) -/
def parseFrac (cs : List Char) : Option (Nat × List Char) :=
  match cs with
  | c :: rest =>
    if c = '.' then
      let r := readDigits rest 0
      if r.2.1 = 0 then none
      else if r.2.1 ≤ 9 then some (r.1 * 10 ^ (9 - r.2.1), r.2.2)
      else none
    else some (0, cs)
  | [] => some (0, [])

/-- RFC3339 parse of the UTC (`Z`-suffixed) form that the marshaller
emits, with Go's field-range validation; `time.Parse` additionally
accepts numeric-offset forms, which the marshaller never produces for
`time.Now().UTC()` and which are not modelled. -/
def parseRFC3339List (cs : List Char) : Option DateTime :=
  match read4 cs with
  | none => none
  | some (y, r1) =>
  match expect '-' r1 with
  | none => none
  | some r2 =>
  match read2 r2 with
  | none => none
  | some (mo, r3) =>
  match expect '-' r3 with
  | none => none
  | some r4 =>
  match read2 r4 with
  | none => none
  | some (d, r5) =>
  match expect 'T' r5 with
  | none => none
  | some r6 =>
  match read2 r6 with
  | none => none
  | some (h, r7) =>
  match expect ':' r7 with
  | none => none
  | some r8 =>
  match read2 r8 with
  | none => none
  | some (mi, r9) =>
  match expect ':' r9 with
  | none => none
  | some r10 =>
  match read2 r10 with
  | none => none
  | some (s, r11) =>
  match parseFrac r11 with
  | none => none
  | some (ns, r12) =>
  match expect 'Z' r12 with
  | none => none
  | some r13 =>
  if r13 = [] ∧ validRanges y mo d h mi s ns then
    some ⟨y, mo, d, h, mi, s, ns⟩
  else none

/-- String entry point of the RFC3339 parser. -/
def parseRFC3339 (s : String) : Option DateTime :=
  parseRFC3339List s.data

/-- The `transport.Envelope` struct.  `Payload` is a `json.RawMessage`
holding a valid JSON blob, represented by its parsed `Json` value (the
struct's zero value, a nil slice, is represented by `Json.null`). -/
structure Envelope where
  eventID : String
  eventType : String
  occurredAt : DateTime
  payload : Json

/-- `json.Marshal` of an `Envelope` following the struct tags:
`event_id`, `event_type`, `occurred_at` (RFC3339 string via
`time.Time.MarshalJSON`), `payload` (raw blob embedded verbatim). -/
def marshalEnvelope (e : Envelope) : Json :=
  Json.obj
    [("event_id", Json.str e.eventID),
     ("event_type", Json.str e.eventType),
     ("occurred_at", Json.str (formatRFC3339 e.occurredAt)),
     ("payload", e.payload)]

/-- One field-decoding step of `json.Unmarshal` into an `Envelope`:
known keys decode into their fields (a type mismatch is an error),
unknown keys are ignored, later duplicates overwrite (the
case-insensitive key fallback of `encoding/json` is not modelled). -/
def unmarshalEnvelopeField (acc : Envelope) (kv : String × Json) : Option Envelope :=
  if kv.1 = "event_id" then
    match kv.2 with
    | Json.str s => some { acc with eventID := s }
    | _ => none
  else if kv.1 = "event_type" then
    match kv.2 with
    | Json.str s => some { acc with eventType := s }
    | _ => none
  else if kv.1 = "occurred_at" then
    match kv.2 with
    | Json.str s =>
      match parseRFC3339 s with
      | some t => some { acc with occurredAt := t }
      | none => none
    | _ => none
  else if kv.1 = "payload" then
    some { acc with payload := kv.2 }
  else some acc

/-- Fold of the field steps over an object's fields. -/
def unmarshalEnvelopeFields : Envelope → List (String × Json) → Option Envelope
  | acc, [] => some acc
  | acc, kv :: rest =>
    match unmarshalEnvelopeField acc kv with
    | some acc' => unmarshalEnvelopeFields acc' rest
    | none => none

/-- `json.Unmarshal` of bytes into a `transport.Envelope`: the document
must be an object; fields start from the struct's zero value. -/
def unmarshalEnvelope (j : Json) : Option Envelope :=
  match j with
  | Json.obj fields =>
    unmarshalEnvelopeFields ⟨"", "", zeroDateTime, Json.null⟩ fields
  | _ => none

/-- A `kafka.Message` as the consumer and retry processor see it; the
value bytes are represented by the `Json` document they hold (an
unparsable value is any non-`obj` document, e.g. `Json.null`, since
`Envelope` decoding requires an object). -/
structure KMessage where
  topic : String
  partition : Int
  offset : Int
  key : String
  value : Json
  headers : List Header

/-- The `kafka.Message` value built locally by `sendToDLQ`, headers
included. -/
structure DLQMessage where
  topic : String
  key : String
  value : Json
  headers : List Header

/-- What actually crosses the `producer.Publish` boundary:
`Publish(ctx, topic, key, value)`.  The `transport.Producer` interface
has no headers parameter, so the `Headers` field of the locally built
DLQ message is discarded at this call and the published record carries
only topic, key and value. -/
structure PublishedMsg where
  topic : String
  key : String
  value : Json

/-- Observable trace of one `ProcessWithRetry` (or direct-path
`processMessage`) call: number of `handler.Handle` invocations, the
backoff durations slept, the `totalRetries` argument of each
`sendToDLQ` call, the messages handed to `producer.Publish`, and the
returned error (`none` = nil). -/
structure Trace where
  handleCalls : Nat
  backoffs : List Int
  dlqArgs : List Int
  published : List PublishedMsg
  result : Option GoError

/-- The `RetryProcessor` struct: its config and the `dlqTopic` field
copied from the config by the constructor. -/
structure RetryProcessor where
  config : ReliabilityConfig
  dlqTopic : String

/-- `NewRetryProcessor`. -/
def NewRetryProcessor (config : ReliabilityConfig) : RetryProcessor :=
  { config := config, dlqTopic := config.DLQTopic }

/-- `RetryProcessor.getRetryCount`: first header under the configured
retry-header key whose value parses with `strconv.Atoi`; `0`
otherwise. -/
def getRetryCount (rp : RetryProcessor) : List Header → Int
  | [] => 0
  | h :: rest =>
    if h.key = rp.config.DLQRetryHeader then
      match atoi h.value with
      | some n => n
      | none => getRetryCount rp rest
    else getRetryCount rp rest

/-- `RetryProcessor.createDLQHeaders`: original headers minus the
retry-count header, then the updated retry count, the error text, the
failure timestamp (`now`, a parameter standing for
`time.Now().UTC().Format(time.RFC3339)`), and the three
original-coordinates headers. -/
def createDLQHeaders (rp : RetryProcessor) (msg : KMessage) (e : GoError)
    (totalRetries : Int) (now : String) : List Header :=
  (msg.headers.filter (fun h => h.key ≠ rp.config.DLQRetryHeader)) ++
  [⟨rp.config.DLQRetryHeader, toString totalRetries⟩,
   ⟨rp.config.DLQErrorHeader, e.msg⟩,
   ⟨rp.config.DLQTimestampHeader, now⟩,
   ⟨"x-original-topic", msg.topic⟩,
   ⟨"x-original-partition", toString msg.partition⟩,
   ⟨"x-original-offset", toString msg.offset⟩]

/-- The DLQ message as `sendToDLQ` builds it before publishing:
`kafka.Message{Topic, Key, Value, Headers: createDLQHeaders(...)}`. -/
def buildDLQMessage (rp : RetryProcessor) (msg : KMessage) (processingErr : GoError)
    (totalRetries : Int) (now : String) : DLQMessage :=
  { topic := rp.dlqTopic, key := msg.key, value := msg.value,
    headers := createDLQHeaders rp msg processingErr totalRetries now }

/-- `RetryProcessor.sendToDLQ`: when DLQ is disabled or the topic
empty, publish nothing and return the original processing error;
otherwise build the DLQ message with its headers and call
`producer.Publish(publishCtx, rp.dlqTopic, string(dlqMsg.Key),
dlqMsg.Value)` (under its own 10s background context, so the caller's
cancellation is irrelevant), returning nil on success or the wrapped
publish error.  The `Publish` call passes only topic, key and value —
the headers built into `dlqMsg` never reach the producer.
`publishErr` stands for the producer's answer for this message. -/
def sendToDLQ (rp : RetryProcessor) (msg : KMessage) (processingErr : GoError)
    (totalRetries : Int) (now : String) (publishErr : Option GoError) :
    List PublishedMsg × Option GoError :=
  if !rp.config.DLQEnabled || rp.dlqTopic = "" then
    ([], some processingErr)
  else
    let dlqMsg := buildDLQMessage rp msg processingErr totalRetries now
    let pub : PublishedMsg := { topic := rp.dlqTopic, key := dlqMsg.key, value := dlqMsg.value }
    match publishErr with
    | some e => ([pub], some (wrapGoErr "failed to send to DLQ: " e))
    | none => ([pub], none)

/-- Error produced by `parseMessage` when `json.Unmarshal` fails. -/
def unmarshalFailErr : GoError :=
  { msg := "failed to unmarshal message", isRetryableType := false, retryable := false }

/-- The attempt loop of `ProcessWithRetry`, structurally recursing on
`remaining = RetryCount - attempt` (the loop runs `attempt` from `0`
to `RetryCount` inclusive).  `handler i` is what `handler.Handle`
returns on its `i`-th invocation; `ctxDone i` says whether the caller's
context is done at the backoff select after attempt `i` (the `select`
then takes the `ctx.Done()` branch and returns `ctx.Err()`). -/
def processLoop (rp : RetryProcessor) (msg : KMessage) (handler : Nat → Option GoError)
    (ctxDone : Nat → Bool) (now : String) (publishErr : Option GoError)
    (prior : Int) : Nat → Nat → Trace
  | remaining, attempt =>
    match handler attempt with
    | none =>
      { handleCalls := 1, backoffs := [], dlqArgs := [], published := [], result := none }
    | some e =>
      if isNonRetryable e then
        let r := sendToDLQ rp msg e (prior + attempt) now publishErr
        { handleCalls := 1, backoffs := [], dlqArgs := [prior + attempt],
          published := r.1, result := r.2 }
      else
        match remaining with
        | 0 =>
          let tot := prior + (rp.config.RetryCount : Int)
          let r := sendToDLQ rp msg e tot now publishErr
          { handleCalls := 1, backoffs := [], dlqArgs := [tot],
            published := r.1, result := r.2 }
        | rem + 1 =>
          if ctxDone attempt then
            { handleCalls := 1, backoffs := [], dlqArgs := [], published := [],
              result := some contextCanceled }
          else
            let b := rp.config.GetRetryBackoffWithJitter attempt
            let t := processLoop rp msg handler ctxDone now publishErr prior rem (attempt + 1)
            { handleCalls := t.handleCalls + 1, backoffs := b :: t.backoffs,
              dlqArgs := t.dlqArgs, published := t.published, result := t.result }

/-- `RetryProcessor.ProcessWithRetry`: parse the value into an
`Envelope` (parse failure goes straight to the DLQ with retry count
`-1`), read the prior retry count from the headers, then run the
attempt loop. -/
def ProcessWithRetry (rp : RetryProcessor) (msg : KMessage)
    (handler : Nat → Option GoError) (ctxDone : Nat → Bool) (now : String)
    (publishErr : Option GoError) : Trace :=
  match unmarshalEnvelope msg.value with
  | none =>
    let r := sendToDLQ rp msg unmarshalFailErr (-1) now publishErr
    { handleCalls := 0, backoffs := [], dlqArgs := [-1], published := r.1, result := r.2 }
  | some _ =>
    processLoop rp msg handler ctxDone now publishErr (getRetryCount rp msg.headers)
      rp.config.RetryCount 0

/-- Metric calls observable from `KafkaProducer.Publish`:
`RecordPublishTime(topic, elapsed)` and `IncMessagesSent(topic,
status)`. -/
inductive MetricEvent where
  | publishTime (topic : String) : MetricEvent
  | messagesSent (topic : String) (status : String) : MetricEvent
deriving DecidableEq, Repr

/-- Mutable state of a `KafkaProducer` relevant to `Publish`/`Close`. -/
structure ProducerState where
  closed : Bool
  defaultTopic : String
deriving DecidableEq, Repr

/-- The "producer is closed" rejection error. -/
def producerClosedErr : GoError :=
  { msg := "producer is closed", isRetryableType := false, retryable := false }

/-- `KafkaProducer.Publish`: under the read lock, reject when closed
(before the latency defer is installed, so a rejected call records no
metric at all); otherwise resolve the topic, write, and record the
sent-status counter followed by the deferred latency histogram.
`writeErr` stands for `writer.WriteMessages`'s answer. -/
def producerPublish (p : ProducerState) (topic : String) (writeErr : Option GoError) :
    Option GoError × List MetricEvent :=
  if p.closed then (some producerClosedErr, [])
  else
    let t := if topic = "" then p.defaultTopic else topic
    match writeErr with
    | some e => (some e, [MetricEvent.messagesSent t "error", MetricEvent.publishTime t])
    | none => (none, [MetricEvent.messagesSent t "success", MetricEvent.publishTime t])

/-- `KafkaProducer.Close` under its mutex: a no-op when already
closed; otherwise set the active-producers gauge to zero, close the
writer, and mark closed only when the writer closed cleanly.
Returns the new state, the gauge values set, and the error. -/
def producerClose (p : ProducerState) (writerCloseErr : Option GoError) :
    ProducerState × List Int × Option GoError :=
  if p.closed then (p, [], none)
  else
    match writerCloseErr with
    | some e => (p, [0], some (wrapGoErr "failed to close writer: " e))
    | none => ({ p with closed := true }, [0], none)

/-- Channel-and-flag state of a `Consumer`: the mutex-guarded
`isRunning` flag and whether `stopCh`/`doneCh` have been closed.  Both
channels are created once in `NewConsumer` and never recreated. -/
structure ConsumerChans where
  isRunning : Bool
  stopClosed : Bool
  doneClosed : Bool
deriving DecidableEq, Repr

/-- Channel state produced by `NewConsumer`. -/
def newConsumerChans : ConsumerChans := ⟨false, false, false⟩

/-- Outcome of one `Consumer.Stop` call.  Closing an already-closed Go
channel panics, so a second `Stop` that still observes
`isRunning = true` (the first run has not finished its deferred
cleanup) reaches `close(c.stopCh)` again and panics. -/
inductive StopOutcome where
  | noop : StopOutcome
  | signaled : StopOutcome
  | panicked : StopOutcome
deriving DecidableEq, Repr

/-- `Consumer.Stop`: return immediately when not running, otherwise
`close(c.stopCh)`. -/
def consumerStop (s : ConsumerChans) : StopOutcome × ConsumerChans :=
  if !s.isRunning then (StopOutcome.noop, s)
  else if s.stopClosed then (StopOutcome.panicked, s)
  else (StopOutcome.signaled, { s with stopClosed := true })

/-- Outcome of one `Consumer.Run` call. -/
inductive RunOutcome where
  | alreadyRunning : RunOutcome
  | blocked : RunOutcome
  | normal : RunOutcome
  | panicCloseDone : RunOutcome
deriving DecidableEq, Repr

/-- Sequential model of `Consumer.Run` in the schedule where the
stop-watcher goroutine observes an already-closed `stopCh` (or a done
outer context) before the read loop's first iteration: fail fast when
already running; with cancellation already pending, process zero
messages and exit; with a `Stop()` arriving mid-run, process `iters`
messages then exit; with no cancellation source the loop never
returns.  Every exit path runs the deferred cleanup, which clears
`isRunning` and then does `close(c.doneCh)` — a panic when `doneCh`
was already closed by a previous completed run.  Returns the outcome,
the resulting channel state, and the number of loop iterations that
processed a message. -/
def consumerRun (s : ConsumerChans) (outerDone stopMidRun : Bool) (iters : Nat) :
    RunOutcome × ConsumerChans × Nat :=
  if s.isRunning then (RunOutcome.alreadyRunning, s, 0)
  else if s.stopClosed || outerDone then
    if s.doneClosed then (RunOutcome.panicCloseDone, ⟨false, s.stopClosed, s.doneClosed⟩, 0)
    else (RunOutcome.normal, ⟨false, s.stopClosed, true⟩, 0)
  else if stopMidRun then
    if s.doneClosed then (RunOutcome.panicCloseDone, ⟨false, true, s.doneClosed⟩, iters)
    else (RunOutcome.normal, ⟨false, true, true⟩, iters)
  else (RunOutcome.blocked, ⟨true, s.stopClosed, s.doneClosed⟩, iters)

/-- The retry-processor installation condition in `NewConsumer`:
`if RetryCount > 0 || DLQEnabled { if DLQEnabled && DLQTopic != "" {
... } }`, with the processor only installed when the DLQ producer was
created successfully (`producerOk`). -/
def newConsumerHasRetryProcessor (rel : ReliabilityConfig) (producerOk : Bool) : Bool :=
  if decide (0 < rel.RetryCount) || rel.DLQEnabled then
    if rel.DLQEnabled && !(rel.DLQTopic = "") then producerOk
    else false
  else false

/-- The direct processing path of `Consumer.processMessage` (taken when
no retry processor is installed): unmarshal the envelope, call the
handler once, wrap any error; no retry, no backoff, no DLQ publish. -/
def processMessageDirect (msg : KMessage) (handlerResult : Option GoError) : Trace :=
  match unmarshalEnvelope msg.value with
  | none =>
    { handleCalls := 0, backoffs := [], dlqArgs := [], published := [],
      result := some unmarshalFailErr }
  | some _ =>
    match handlerResult with
    | none => { handleCalls := 1, backoffs := [], dlqArgs := [], published := [], result := none }
    | some e =>
      { handleCalls := 1, backoffs := [], dlqArgs := [], published := [],
        result := some (wrapGoErr "handler failed: " e) }

/-- `Consumer.processMessage`: delegate to the retry processor when one
is installed, otherwise take the direct path. -/
def processMessage (hasRetryProcessor : Bool) (rp : RetryProcessor) (msg : KMessage)
    (handler : Nat → Option GoError) (ctxDone : Nat → Bool) (now : String)
    (publishErr : Option GoError) : Trace :=
  if hasRetryProcessor then ProcessWithRetry rp msg handler ctxDone now publishErr
  else processMessageDirect msg (handler 0)

/-- Config used by the counterexamples to the backoff claim: base
delay `2` ns above the cap `1` ns (the config validation constrains
neither field against the other). -/
def c3cfgA : ReliabilityConfig :=
  { RetryCount := 3, RetryBackoff := 2, RetryBackoffMultiplier := ⟨1, 1⟩,
    MaxRetryBackoff := 1, DLQTopic := "dlq", DLQEnabled := true,
    DLQRetryHeader := "x-retry-count", DLQErrorHeader := "x-error-message",
    DLQTimestampHeader := "x-failed-timestamp" }

/-- Config with multiplier `1.5` (exactly representable in `float64`,
and all intermediate products below are exact), exposing the per-step
truncation of `GetRetryBackoffWithJitter`. -/
def c3cfgB : ReliabilityConfig :=
  { RetryCount := 5, RetryBackoff := 3, RetryBackoffMultiplier := ⟨3, 2⟩,
    MaxRetryBackoff := 1000000, DLQTopic := "dlq", DLQEnabled := true,
    DLQRetryHeader := "x-retry-count", DLQErrorHeader := "x-error-message",
    DLQTimestampHeader := "x-failed-timestamp" }

/-- Config used by witnesses: base 100ns, multiplier 2, cap 1000ns. -/
def witnessCfg : ReliabilityConfig :=
  { RetryCount := 3, RetryBackoff := 100, RetryBackoffMultiplier := ⟨2, 1⟩,
    MaxRetryBackoff := 1000, DLQTopic := "orders-dlq", DLQEnabled := true,
    DLQRetryHeader := "x-retry-count", DLQErrorHeader := "x-error-message",
    DLQTimestampHeader := "x-failed-timestamp" }

/-- `witnessCfg` with the DLQ disabled. -/
def disabledCfg : ReliabilityConfig :=
  { witnessCfg with DLQEnabled := false }

/-- An ordinary handler error: not a `*RetryableError`, hence treated
as retryable. -/
def boomErr : GoError := { msg := "boom", isRetryableType := false, retryable := false }

/-- A `*RetryableError` with `Retryable: false`: explicitly
non-retryable. -/
def fatalErr : GoError := { msg := "bad payload", isRetryableType := true, retryable := false }

/-- A concrete incoming message whose value parses as an `Envelope`
(the empty object decodes to the zero envelope) and whose headers carry
a prior retry count of 2. -/
def witnessMsg : KMessage :=
  { topic := "orders", partition := 0, offset := 42, key := "k1",
    value := Json.obj [], headers := [⟨"x-retry-count", "2"⟩] }

/-- Retry processor over `witnessCfg`. -/
def witnessRP : RetryProcessor := NewRetryProcessor witnessCfg

/-- Retry processor over `disabledCfg`. -/
def disabledRP : RetryProcessor := NewRetryProcessor disabledCfg

/-- A concrete envelope with a sub-second timestamp for the round-trip
witness. -/
def witnessEnvelope : Envelope :=
  { eventID := "evt-1", eventType := "order.created",
    occurredAt := ⟨2024, 5, 17, 10, 30, 5, 123000000⟩,
    payload := Json.obj [("amount", Json.num 3)] }

end Shared

namespace Shared

theorem le_floatMulTrunc (b : Int) (m : GoFloat) (hb : 0 ≤ b)
    (hden : 0 < m.den) (hm : m.den ≤ m.num) : b ≤ floatMulTrunc b m := by
  have hnum : 0 ≤ m.num := le_trans hden.le hm
  have hbnum : 0 ≤ b * m.num := mul_nonneg hb hnum
  unfold floatMulTrunc
  rw [Int.tdiv_eq_ediv hbnum hden.le, Int.le_ediv_iff_mul_le hden]
  exact mul_le_mul_of_nonneg_left hm hb

theorem floatMulTrunc_nonneg (b : Int) (m : GoFloat) (hb : 0 ≤ b)
    (hden : 0 < m.den) (hm : m.den ≤ m.num) : 0 ≤ floatMulTrunc b m :=
  le_trans hb (le_floatMulTrunc b m hb hden hm)

theorem backoffLoop_le_max (rc : ReliabilityConfig)
    (hden : 0 < rc.RetryBackoffMultiplier.den)
    (hm : rc.RetryBackoffMultiplier.den ≤ rc.RetryBackoffMultiplier.num) :
    ∀ n b, 0 ≤ b → b ≤ rc.MaxRetryBackoff → backoffLoop rc n b ≤ rc.MaxRetryBackoff := by
  intro n
  induction n with
  | zero => intro b _ hbm; simpa [backoffLoop] using hbm
  | succ n ih =>
    intro b hb hbm
    simp only [backoffLoop]
    split
    · exact le_refl _
    · next hcap =>
      exact ih _ (floatMulTrunc_nonneg b _ hb hden hm) (le_of_not_lt hcap)

theorem backoffLoop_mono (rc : ReliabilityConfig)
    (hden : 0 < rc.RetryBackoffMultiplier.den)
    (hm : rc.RetryBackoffMultiplier.den ≤ rc.RetryBackoffMultiplier.num) :
    ∀ n b, 0 ≤ b → b ≤ rc.MaxRetryBackoff →
      backoffLoop rc n b ≤ backoffLoop rc (n + 1) b := by
  intro n
  induction n with
  | zero =>
    intro b hb hbm
    simp only [backoffLoop]
    split
    · exact hbm
    · exact le_floatMulTrunc b _ hb hden hm
  | succ n ih =>
    intro b hb hbm
    simp only [backoffLoop]
    split
    · exact le_refl _
    · next hcap =>
      exact ih _ (floatMulTrunc_nonneg b _ hb hden hm) (le_of_not_lt hcap)

/-- C3 (amended): the backoff at attempt `a` is the per-step-truncated
iterate of the multiplier, not the closed-form power; provided the
base delay is nonnegative and no larger than the cap and the
multiplier is at least 1, consecutive backoff delays are non-decreasing
and every delay (attempt 0 included) is bounded by `max_retry_backoff`. -/
theorem c3_backoff_monotone_bounded (rc : ReliabilityConfig)
    (hden : 0 < rc.RetryBackoffMultiplier.den)
    (hm : rc.RetryBackoffMultiplier.den ≤ rc.RetryBackoffMultiplier.num)
    (hb : 0 ≤ rc.RetryBackoff) (hbm : rc.RetryBackoff ≤ rc.MaxRetryBackoff) (a : Nat) :
    rc.GetRetryBackoffWithJitter a ≤ rc.GetRetryBackoffWithJitter (a + 1) ∧
    rc.GetRetryBackoffWithJitter a ≤ rc.MaxRetryBackoff :=
  ⟨backoffLoop_mono rc hden hm a rc.RetryBackoff hb hbm,
   backoffLoop_le_max rc hden hm a rc.RetryBackoff hb hbm⟩

/-- Witness for the amended backoff claim at a concrete config and
attempt. -/
theorem c3_backoff_witness :
    (0 : Int) < witnessCfg.RetryBackoffMultiplier.den ∧
    witnessCfg.RetryBackoffMultiplier.den ≤ witnessCfg.RetryBackoffMultiplier.num ∧
    (0 : Int) ≤ witnessCfg.RetryBackoff ∧
    witnessCfg.RetryBackoff ≤ witnessCfg.MaxRetryBackoff ∧
    (witnessCfg.GetRetryBackoffWithJitter 1 ≤ witnessCfg.GetRetryBackoffWithJitter 2 ∧
     witnessCfg.GetRetryBackoffWithJitter 1 ≤ witnessCfg.MaxRetryBackoff) :=
  ⟨by decide, by decide, by decide, by decide,
   c3_backoff_monotone_bounded witnessCfg (by decide) (by decide) (by decide) (by decide) 1⟩

/-- C3 counterexample: at attempt 0 the cap is never applied, so with
`retry_backoff = 2 > max_retry_backoff = 1` the delay exceeds the cap,
differs from the spec's capped closed form, and the sequence even
decreases from attempt 0 to attempt 1; and with multiplier `1.5` the
per-step truncation gives `3 → 4 → 6 → 9 → 13` at attempt 4 while the
closed form `trunc(3 * 1.5^4)` gives `15`. -/
theorem c3_backoff_counterexample :
    c3cfgA.GetRetryBackoffWithJitter 0 = 2 ∧
    c3cfgA.MaxRetryBackoff = 1 ∧
    ¬ c3cfgA.GetRetryBackoffWithJitter 0 ≤ c3cfgA.MaxRetryBackoff ∧
    c3cfgA.GetRetryBackoffWithJitter 0 ≠ specBackoffFormula c3cfgA 0 ∧
    c3cfgA.GetRetryBackoffWithJitter 1 < c3cfgA.GetRetryBackoffWithJitter 0 ∧
    c3cfgB.GetRetryBackoffWithJitter 4 = 13 ∧
    specBackoffFormula c3cfgB 4 = 15 := by
  decide

/-- C7 (amended): every `Publish` call that passes the closed check
records exactly one sent-status counter and one publish-latency sample
for the resolved topic, with status matching the write outcome; a call
rejected because the producer is closed records neither. -/
theorem c7_publish_metrics (p : ProducerState) (topic : String)
    (writeErr : Option GoError) (h : p.closed = false) :
    (producerPublish p topic writeErr).2 =
      [MetricEvent.messagesSent (if topic = "" then p.defaultTopic else topic)
        (if writeErr.isSome then "error" else "success"),
       MetricEvent.publishTime (if topic = "" then p.defaultTopic else topic)] ∧
    (producerPublish p topic writeErr).1 = writeErr := by
  cases writeErr <;> simp [producerPublish, h]

/-- Witness for the amended publish-metrics claim. -/
theorem c7_publish_metrics_witness :
    ((⟨false, "events"⟩ : ProducerState).closed = false) ∧
    (producerPublish ⟨false, "events"⟩ "" none).2 =
      [MetricEvent.messagesSent (if "" = "" then "events" else "")
        (if (none : Option GoError).isSome then "error" else "success"),
       MetricEvent.publishTime (if "" = "" then "events" else "")] ∧
    (producerPublish ⟨false, "events"⟩ "" none).1 = none :=
  ⟨rfl, c7_publish_metrics ⟨false, "events"⟩ "" none rfl⟩

/-- C7 counterexample: a call rejected because the producer is already
closed returns before the latency defer is installed and before any
status counter, so it records no metric at all. -/
theorem c7_publish_closed_counterexample :
    (producerPublish ⟨true, "events"⟩ "orders" none).2 = [] ∧
    (producerPublish ⟨true, "events"⟩ "orders" none).1 = some producerClosedErr := by
  decide

/-- C6: the claim is that repeated `Stop()` never panics, but the
guard only checks `isRunning`; while the consumer is still running
(its deferred cleanup has not yet cleared the flag), a second `Stop()`
reaches `close(c.stopCh)` on an already-closed channel, which panics. -/
theorem c6_double_stop_panics :
    (consumerStop (consumerStop ⟨true, false, false⟩).2).1 = StopOutcome.panicked ∧
    (consumerStop ⟨true, false, false⟩).1 = StopOutcome.signaled := by
  decide

/-- C10: a consumer constructed by `NewConsumer` supports one completed
run: after a first `Run` that was shut down by `Stop()`, both `stopCh`
and `doneCh` are closed, so a second `Run` is cancelled before reading
anything (zero messages processed) and its deferred cleanup panics
closing the already-closed `doneCh`. -/
theorem c10_second_run_panics (n m : Nat) :
    (consumerRun newConsumerChans false true n).1 = RunOutcome.normal ∧
    (consumerRun newConsumerChans false true n).2.1.stopClosed = true ∧
    (consumerRun newConsumerChans false true n).2.1.doneClosed = true ∧
    (consumerRun (consumerRun newConsumerChans false true n).2.1 false false m).1 =
      RunOutcome.panicCloseDone ∧
    (consumerRun (consumerRun newConsumerChans false true n).2.1 false false m).2.2 = 0 := by
  simp [consumerRun, newConsumerChans]

theorem headerLookup_filter_append (l : List Header) (rest : List Header) (k : String) :
    headerLookup ((l.filter (fun h => h.key ≠ k)) ++ rest) k = headerLookup rest k := by
  induction l with
  | nil => rfl
  | cons h t ih =>
    by_cases hk : h.key = k
    · simpa [List.filter_cons, hk] using ih
    · simpa [List.filter_cons, hk, headerLookup] using ih

theorem headerLookup_createDLQHeaders (rp : RetryProcessor) (msg : KMessage)
    (e : GoError) (tot : Int) (now : String) :
    headerLookup (createDLQHeaders rp msg e tot now) rp.config.DLQRetryHeader =
      some (toString tot) := by
  unfold createDLQHeaders
  rw [headerLookup_filter_append]
  simp [headerLookup]

theorem sendToDLQ_enabled_publish (rp : RetryProcessor) (msg : KMessage) (e : GoError)
    (tot : Int) (now : String) (publishErr : Option GoError)
    (hdlq : rp.config.DLQEnabled = true) (htopic : ¬ rp.dlqTopic = "") :
    (sendToDLQ rp msg e tot now publishErr).1 =
      [{ topic := rp.dlqTopic, key := msg.key, value := msg.value }] := by
  cases publishErr <;> simp [sendToDLQ, buildDLQMessage, hdlq, htopic]

theorem processLoop_all_fail (rp : RetryProcessor) (msg : KMessage) (hf : Nat → GoError)
    (ctxDone : Nat → Bool) (now : String) (publishErr : Option GoError) (prior : Int)
    (hfail : ∀ i, isNonRetryable (hf i) = false)
    (hctx : ∀ i, ctxDone i = false) :
    ∀ remaining attempt,
      (processLoop rp msg (fun i => some (hf i)) ctxDone now publishErr prior
        remaining attempt).handleCalls = remaining + 1 ∧
      (processLoop rp msg (fun i => some (hf i)) ctxDone now publishErr prior
        remaining attempt).dlqArgs = [prior + (rp.config.RetryCount : Int)] ∧
      (processLoop rp msg (fun i => some (hf i)) ctxDone now publishErr prior
        remaining attempt).published =
        (sendToDLQ rp msg (hf (attempt + remaining)) (prior + (rp.config.RetryCount : Int))
          now publishErr).1 ∧
      (processLoop rp msg (fun i => some (hf i)) ctxDone now publishErr prior
        remaining attempt).result =
        (sendToDLQ rp msg (hf (attempt + remaining)) (prior + (rp.config.RetryCount : Int))
          now publishErr).2 := by
  intro remaining
  induction remaining with
  | zero =>
    intro attempt
    rw [processLoop]
    simp [hfail attempt]
  | succ rem ih =>
    intro attempt
    obtain ⟨h1, h2, h3, h4⟩ := ih (attempt + 1)
    have hidx : attempt + 1 + rem = attempt + (rem + 1) := by omega
    rw [hidx] at h3 h4
    rw [processLoop]
    simp [hfail attempt, hctx attempt, h1, h2, h3, h4]

/-- C1 (code bug): at a concrete exhaustion scenario — always-failing
retryable handler, live context, prior header count 2, `RetryCount`
3, DLQ enabled, publish succeeding — the handler runs
`RetryCount + 1 = 4` times, `sendToDLQ` is invoked with
`priorCount + RetryCount = 5` and its (nil) result is returned, and
the code builds the retry-count header `"x-retry-count" = "5"` into
its local DLQ message; but the `Publish(ctx, topic, key, value)`
boundary carries no headers, so the published DLQ message holds only
topic, key and value, identical for any recorded total — no retry
count is recorded on it, contrary to the claim and to spec §4.2/§6. -/
theorem c1_dlq_recording_divergence :
    (ProcessWithRetry witnessRP witnessMsg (fun _ => some boomErr) (fun _ => false)
      "2024-05-17T10:30:05Z" none).handleCalls = witnessRP.config.RetryCount + 1 ∧
    (ProcessWithRetry witnessRP witnessMsg (fun _ => some boomErr) (fun _ => false)
      "2024-05-17T10:30:05Z" none).dlqArgs = [5] ∧
    (ProcessWithRetry witnessRP witnessMsg (fun _ => some boomErr) (fun _ => false)
      "2024-05-17T10:30:05Z" none).result = none ∧
    headerLookup (buildDLQMessage witnessRP witnessMsg boomErr 5
      "2024-05-17T10:30:05Z").headers witnessRP.config.DLQRetryHeader = some "5" ∧
    (ProcessWithRetry witnessRP witnessMsg (fun _ => some boomErr) (fun _ => false)
      "2024-05-17T10:30:05Z" none).published =
      [{ topic := "orders-dlq", key := "k1", value := Json.obj [] }] ∧
    (sendToDLQ witnessRP witnessMsg boomErr 5 "2024-05-17T10:30:05Z" none).1 =
      (sendToDLQ witnessRP witnessMsg boomErr 999 "2024-05-17T10:30:05Z" none).1 := by
  refine ⟨rfl, rfl, rfl, by decide, rfl, rfl⟩

theorem sendToDLQ_disabled (rp : RetryProcessor) (msg : KMessage) (e : GoError)
    (tot : Int) (now : String) (publishErr : Option GoError)
    (hdis : rp.config.DLQEnabled = false ∨ rp.dlqTopic = "") :
    sendToDLQ rp msg e tot now publishErr = ([], some e) := by
  rcases hdis with h | h <;> simp [sendToDLQ, h]

theorem processLoop_nonretryable (rp : RetryProcessor) (msg : KMessage) (hf : Nat → GoError)
    (ctxDone : Nat → Bool) (now : String) (publishErr : Option GoError) (prior : Int) (a : Nat)
    (hbefore : ∀ i, i < a → isNonRetryable (hf i) = false)
    (hstop : isNonRetryable (hf a) = true)
    (hctx : ∀ i, i < a → ctxDone i = false) :
    ∀ remaining attempt, attempt ≤ a → a ≤ attempt + remaining →
      (processLoop rp msg (fun i => some (hf i)) ctxDone now publishErr prior
        remaining attempt).handleCalls = a - attempt + 1 ∧
      (processLoop rp msg (fun i => some (hf i)) ctxDone now publishErr prior
        remaining attempt).dlqArgs = [prior + (a : Int)] ∧
      (processLoop rp msg (fun i => some (hf i)) ctxDone now publishErr prior
        remaining attempt).published =
        (sendToDLQ rp msg (hf a) (prior + (a : Int)) now publishErr).1 ∧
      (processLoop rp msg (fun i => some (hf i)) ctxDone now publishErr prior
        remaining attempt).result =
        (sendToDLQ rp msg (hf a) (prior + (a : Int)) now publishErr).2 := by
  intro remaining
  induction remaining with
  | zero =>
    intro attempt hle hge
    have heq : attempt = a := by omega
    subst heq
    rw [processLoop]
    simp [hstop]
  | succ rem ih =>
    intro attempt hle hge
    by_cases heq : attempt = a
    · subst heq
      rw [processLoop]
      simp [hstop]
    · have hlt : attempt < a := lt_of_le_of_ne hle heq
      obtain ⟨h1, h2, h3, h4⟩ := ih (attempt + 1) (by omega) (by omega)
      rw [processLoop]
      simp [hbefore attempt hlt, hctx attempt hlt, h1, h2, h3, h4]
      omega

/-- C2 (amended): when the DLQ is enabled with a non-empty topic, a
handler error explicitly marked non-retryable at attempt `a` causes
exactly one DLQ publish regardless of the configured retry count, and
`ProcessWithRetry` returns the escalation's result with no further
handler invocation (`a + 1` calls in total); `sendToDLQ` is invoked
with recorded total `priorCount + a` and builds the retry-count header
into its local DLQ message, but the published message carries only
topic, key and value — the `Publish(ctx, topic, key, value)` boundary
drops the headers, so no retry count is recorded on it. -/
theorem c2_nonretryable_single_publish (rp : RetryProcessor) (msg : KMessage)
    (hf : Nat → GoError) (ctxDone : Nat → Bool) (now : String) (publishErr : Option GoError)
    (a : Nat)
    (henv : (unmarshalEnvelope msg.value).isSome = true)
    (hbefore : ∀ i, i < a → isNonRetryable (hf i) = false)
    (hstop : isNonRetryable (hf a) = true)
    (hctx : ∀ i, i < a → ctxDone i = false)
    (ha : a ≤ rp.config.RetryCount)
    (hdlq : rp.config.DLQEnabled = true)
    (htopic : ¬ rp.dlqTopic = "") :
    (ProcessWithRetry rp msg (fun i => some (hf i)) ctxDone now publishErr).handleCalls =
      a + 1 ∧
    (ProcessWithRetry rp msg (fun i => some (hf i)) ctxDone now publishErr).published =
      [{ topic := rp.dlqTopic, key := msg.key, value := msg.value }] ∧
    (ProcessWithRetry rp msg (fun i => some (hf i)) ctxDone now publishErr).dlqArgs =
      [getRetryCount rp msg.headers + (a : Int)] ∧
    (ProcessWithRetry rp msg (fun i => some (hf i)) ctxDone now publishErr).result =
      (sendToDLQ rp msg (hf a) (getRetryCount rp msg.headers + (a : Int)) now publishErr).2 ∧
    headerLookup (buildDLQMessage rp msg (hf a)
        (getRetryCount rp msg.headers + (a : Int)) now).headers rp.config.DLQRetryHeader =
      some (toString (getRetryCount rp msg.headers + (a : Int))) := by
  rcases henv' : unmarshalEnvelope msg.value with _ | env
  · rw [henv'] at henv; simp at henv
  · obtain ⟨h1, h2, h3, h4⟩ := processLoop_nonretryable rp msg hf ctxDone now publishErr
      (getRetryCount rp msg.headers) a hbefore hstop hctx rp.config.RetryCount 0
      (by omega) (by omega)
    simp only [ProcessWithRetry, henv']
    rw [h1, h2, h3, h4]
    exact ⟨by omega, sendToDLQ_enabled_publish rp msg (hf a) _ now publishErr hdlq htopic,
      rfl, rfl, headerLookup_createDLQHeaders rp msg (hf a) _ now⟩

/-- Witness for the amended C2 at a non-retryable failure on attempt 0. -/
theorem c2_nonretryable_witness :
    (unmarshalEnvelope witnessMsg.value).isSome = true ∧
    isNonRetryable fatalErr = true ∧
    witnessRP.config.DLQEnabled = true ∧
    (ProcessWithRetry witnessRP witnessMsg (fun _ => some fatalErr) (fun _ => false)
      "2024-05-17T10:30:05Z" none).handleCalls = 0 + 1 ∧
    (ProcessWithRetry witnessRP witnessMsg (fun _ => some fatalErr) (fun _ => false)
      "2024-05-17T10:30:05Z" none).published =
      [{ topic := witnessRP.dlqTopic, key := witnessMsg.key, value := witnessMsg.value }] ∧
    (ProcessWithRetry witnessRP witnessMsg (fun _ => some fatalErr) (fun _ => false)
      "2024-05-17T10:30:05Z" none).dlqArgs =
      [getRetryCount witnessRP witnessMsg.headers + ((0 : Nat) : Int)] := by
  have h := c2_nonretryable_single_publish witnessRP witnessMsg (fun _ => fatalErr)
    (fun _ => false) "2024-05-17T10:30:05Z" none 0 rfl
    (fun i hi => absurd hi (Nat.not_lt_zero i)) rfl
    (fun i hi => absurd hi (Nat.not_lt_zero i)) (by decide) rfl (by decide)
  exact ⟨rfl, rfl, rfl, h.1, h.2.1, h.2.2.1⟩

/-- C2 counterexample: with the DLQ disabled (a configuration the claim
quantifies over, since it constrains only the handler error), a
non-retryable failure performs zero DLQ publishes, not exactly one,
even though `retry_count = 3`; and even with the DLQ enabled, the
published DLQ message consists of topic, key and value only and is
identical for any recorded total — no retry count is recorded on it. -/
theorem c2_publish_counterexample :
    isNonRetryable fatalErr = true ∧
    disabledRP.config.RetryCount = 3 ∧
    (ProcessWithRetry disabledRP witnessMsg (fun _ => some fatalErr) (fun _ => false)
      "2024-05-17T10:30:05Z" none).published.length = 0 ∧
    (ProcessWithRetry witnessRP witnessMsg (fun _ => some fatalErr) (fun _ => false)
      "2024-05-17T10:30:05Z" none).published =
      [{ topic := "orders-dlq", key := "k1", value := Json.obj [] }] ∧
    (sendToDLQ witnessRP witnessMsg fatalErr 2 "2024-05-17T10:30:05Z" none).1 =
      (sendToDLQ witnessRP witnessMsg fatalErr 999 "2024-05-17T10:30:05Z" none).1 := by
  refine ⟨rfl, rfl, rfl, rfl, rfl⟩

theorem processLoop_cancel (rp : RetryProcessor) (msg : KMessage) (hf : Nat → GoError)
    (ctxDone : Nat → Bool) (now : String) (publishErr : Option GoError) (prior : Int) (a : Nat)
    (hfail : ∀ i, isNonRetryable (hf i) = false)
    (hbefore : ∀ i, i < a → ctxDone i = false)
    (hat : ctxDone a = true) :
    ∀ remaining attempt, attempt ≤ a → a < attempt + remaining →
      (processLoop rp msg (fun i => some (hf i)) ctxDone now publishErr prior
        remaining attempt).handleCalls = a - attempt + 1 ∧
      (processLoop rp msg (fun i => some (hf i)) ctxDone now publishErr prior
        remaining attempt).dlqArgs = [] ∧
      (processLoop rp msg (fun i => some (hf i)) ctxDone now publishErr prior
        remaining attempt).published = [] ∧
      (processLoop rp msg (fun i => some (hf i)) ctxDone now publishErr prior
        remaining attempt).result = some contextCanceled := by
  intro remaining
  induction remaining with
  | zero =>
    intro attempt hle hlt
    omega
  | succ rem ih =>
    intro attempt hle hlt
    by_cases heq : attempt = a
    · subst heq
      rw [processLoop]
      simp [hfail attempt, hat]
    · have hlt' : attempt < a := lt_of_le_of_ne hle heq
      obtain ⟨h1, h2, h3, h4⟩ := ih (attempt + 1) (by omega) (by omega)
      rw [processLoop]
      simp [hfail attempt, hbefore attempt hlt', h1, h2, h3, h4]
      omega

/-- C4: when the caller's context is cancelled at the backoff wait
after attempt `a` (with retryable failures up to there and further
attempts remaining), `ProcessWithRetry` returns the context's
cancellation error immediately, with no further handler invocation and
no DLQ publish. -/
theorem c4_cancel_during_backoff (rp : RetryProcessor) (msg : KMessage) (hf : Nat → GoError)
    (ctxDone : Nat → Bool) (now : String) (publishErr : Option GoError) (a : Nat)
    (henv : (unmarshalEnvelope msg.value).isSome = true)
    (hfail : ∀ i, isNonRetryable (hf i) = false)
    (hbefore : ∀ i, i < a → ctxDone i = false)
    (hat : ctxDone a = true)
    (ha : a < rp.config.RetryCount) :
    (ProcessWithRetry rp msg (fun i => some (hf i)) ctxDone now publishErr).result =
      some contextCanceled ∧
    (ProcessWithRetry rp msg (fun i => some (hf i)) ctxDone now publishErr).handleCalls =
      a + 1 ∧
    (ProcessWithRetry rp msg (fun i => some (hf i)) ctxDone now publishErr).published = [] ∧
    (ProcessWithRetry rp msg (fun i => some (hf i)) ctxDone now publishErr).dlqArgs = [] := by
  rcases henv' : unmarshalEnvelope msg.value with _ | env
  · rw [henv'] at henv; simp at henv
  · obtain ⟨h1, h2, h3, h4⟩ := processLoop_cancel rp msg hf ctxDone now publishErr
      (getRetryCount rp msg.headers) a hfail hbefore hat rp.config.RetryCount 0
      (by omega) (by omega)
    simp only [ProcessWithRetry, henv']
    rw [h1, h2, h3, h4]
    exact ⟨rfl, by omega, rfl, rfl⟩

/-- Witness for C4: cancellation at the first backoff wait. -/
theorem c4_cancel_witness :
    (unmarshalEnvelope witnessMsg.value).isSome = true ∧
    (0 : Nat) < witnessRP.config.RetryCount ∧
    (ProcessWithRetry witnessRP witnessMsg (fun _ => some boomErr) (fun _ => true)
      "2024-05-17T10:30:05Z" none).result = some contextCanceled ∧
    (ProcessWithRetry witnessRP witnessMsg (fun _ => some boomErr) (fun _ => true)
      "2024-05-17T10:30:05Z" none).handleCalls = 0 + 1 ∧
    (ProcessWithRetry witnessRP witnessMsg (fun _ => some boomErr) (fun _ => true)
      "2024-05-17T10:30:05Z" none).published = [] := by
  have h := c4_cancel_during_backoff witnessRP witnessMsg (fun _ => boomErr)
    (fun _ => true) "2024-05-17T10:30:05Z" none 0 rfl (fun _ => rfl)
    (fun i hi => absurd hi (Nat.not_lt_zero i)) rfl (by decide)
  exact ⟨rfl, by decide, h.1, h.2.1, h.2.2.1⟩

/-- C5: with the DLQ disabled or the topic empty, `sendToDLQ` performs
no publish and returns the original processing error unchanged; in
particular a handler that always fails (retryably) makes
`ProcessWithRetry` return the last handler error after
`RetryCount + 1` invocations with nothing published. -/
theorem c5_dlq_disabled (rp : RetryProcessor) (msg : KMessage) (hf : Nat → GoError)
    (ctxDone : Nat → Bool) (now : String) (publishErr : Option GoError)
    (hdis : rp.config.DLQEnabled = false ∨ rp.dlqTopic = "")
    (henv : (unmarshalEnvelope msg.value).isSome = true)
    (hfail : ∀ i, isNonRetryable (hf i) = false)
    (hctx : ∀ i, ctxDone i = false) :
    (∀ e tot, sendToDLQ rp msg e tot now publishErr = ([], some e)) ∧
    (ProcessWithRetry rp msg (fun i => some (hf i)) ctxDone now publishErr).handleCalls =
      rp.config.RetryCount + 1 ∧
    (ProcessWithRetry rp msg (fun i => some (hf i)) ctxDone now publishErr).published = [] ∧
    (ProcessWithRetry rp msg (fun i => some (hf i)) ctxDone now publishErr).result =
      some (hf rp.config.RetryCount) := by
  rcases henv' : unmarshalEnvelope msg.value with _ | env
  · rw [henv'] at henv; simp at henv
  · obtain ⟨h1, h2, h3, h4⟩ := processLoop_all_fail rp msg hf ctxDone now publishErr
      (getRetryCount rp msg.headers) hfail hctx rp.config.RetryCount 0
    simp only [ProcessWithRetry, henv']
    refine ⟨fun e tot => sendToDLQ_disabled rp msg e tot now publishErr hdis, h1, ?_, ?_⟩
    · rw [h3, sendToDLQ_disabled rp msg _ _ now publishErr hdis]
    · rw [h4, sendToDLQ_disabled rp msg _ _ now publishErr hdis]
      simp

/-- Witness for C5 with the DLQ disabled and an always-failing
handler. -/
theorem c5_dlq_disabled_witness :
    (disabledRP.config.DLQEnabled = false ∨ disabledRP.dlqTopic = "") ∧
    (unmarshalEnvelope witnessMsg.value).isSome = true ∧
    (∀ e tot, sendToDLQ disabledRP witnessMsg e tot "2024-05-17T10:30:05Z" none =
      ([], some e)) ∧
    (ProcessWithRetry disabledRP witnessMsg (fun _ => some boomErr) (fun _ => false)
      "2024-05-17T10:30:05Z" none).handleCalls = disabledRP.config.RetryCount + 1 ∧
    (ProcessWithRetry disabledRP witnessMsg (fun _ => some boomErr) (fun _ => false)
      "2024-05-17T10:30:05Z" none).published = [] ∧
    (ProcessWithRetry disabledRP witnessMsg (fun _ => some boomErr) (fun _ => false)
      "2024-05-17T10:30:05Z" none).result = some boomErr := by
  have h := c5_dlq_disabled disabledRP witnessMsg (fun _ => boomErr) (fun _ => false)
    "2024-05-17T10:30:05Z" none (Or.inl rfl) rfl (fun _ => rfl) (fun _ => rfl)
  exact ⟨Or.inl rfl, rfl, h.1, h.2.1, h.2.2.1, h.2.2.2⟩

theorem readDigit_digitChar (d : Nat) (h : d < 10) : readDigit (digitChar d) = some d := by
  interval_cases d <;> decide

theorem read2_padDigits (n : Nat) (rest : List Char) (h : n < 100) :
    read2 (padDigits 2 n ++ rest) = some (n, rest) := by
  have hpad : padDigits 2 n = [digitChar (n / 10 % 10), digitChar (n % 10)] := rfl
  rw [hpad]
  simp [read2, readDigit_digitChar _ (show n / 10 % 10 < 10 by omega),
    readDigit_digitChar _ (show n % 10 < 10 by omega)]
  omega

theorem read4_padDigits (n : Nat) (rest : List Char) (h : n < 10000) :
    read4 (padDigits 4 n ++ rest) = some (n, rest) := by
  have hpad : padDigits 4 n =
      [digitChar (n / 10 / 10 / 10 % 10), digitChar (n / 10 / 10 % 10),
       digitChar (n / 10 % 10), digitChar (n % 10)] := rfl
  rw [hpad]
  simp [read4, readDigit_digitChar _ (show n / 10 / 10 / 10 % 10 < 10 by omega),
    readDigit_digitChar _ (show n / 10 / 10 % 10 < 10 by omega),
    readDigit_digitChar _ (show n / 10 % 10 < 10 by omega),
    readDigit_digitChar _ (show n % 10 < 10 by omega)]
  omega

theorem expect_cons_self (c : Char) (rest : List Char) : expect c (c :: rest) = some rest := by
  simp [expect]

theorem readDigits_stop (c : Char) (rest : List Char) (acc : Nat) (h : readDigit c = none) :
    readDigits (c :: rest) acc = (acc, 0, c :: rest) := by
  simp [readDigits, h]

theorem readDigits_padDigits (w : Nat) : ∀ (v : Nat) (rest : List Char) (acc : Nat),
    v < 10 ^ w →
    readDigits (padDigits w v ++ rest) acc =
      ((readDigits rest (acc * 10 ^ w + v)).1,
       (readDigits rest (acc * 10 ^ w + v)).2.1 + w,
       (readDigits rest (acc * 10 ^ w + v)).2.2) := by
  induction w with
  | zero =>
    intro v rest acc hv
    have hv0 : v = 0 := by simpa using hv
    subst hv0
    simp [padDigits]
  | succ w ih =>
    intro v rest acc hv
    have hp : (10 : Nat) ^ (w + 1) = 10 ^ w * 10 := pow_succ 10 w
    have hv10 : v / 10 < 10 ^ w := by omega
    have hd : v % 10 < 10 := by omega
    have harg : (acc * 10 ^ w + v / 10) * 10 + v % 10 = acc * 10 ^ (w + 1) + v := by
      have hvm : v / 10 * 10 + v % 10 = v := by omega
      calc (acc * 10 ^ w + v / 10) * 10 + v % 10
          = acc * (10 ^ w * 10) + (v / 10 * 10 + v % 10) := by ring
        _ = acc * 10 ^ (w + 1) + v := by rw [hvm, ← pow_succ]
    simp only [padDigits, List.append_assoc, List.singleton_append]
    rw [ih (v / 10) (digitChar (v % 10) :: rest) acc hv10]
    simp only [readDigits, readDigit_digitChar _ hd]
    rw [harg]
    simp [Nat.add_comm, Nat.add_assoc, Nat.add_left_comm]

theorem stripZeros_spec : ∀ (w v : Nat), v < 10 ^ w →
    (stripZeros w v).2 < 10 ^ (stripZeros w v).1 ∧
    v = (stripZeros w v).2 * 10 ^ (w - (stripZeros w v).1) ∧
    (stripZeros w v).1 ≤ w ∧
    (0 < v → 0 < (stripZeros w v).1) := by
  intro w
  induction w with
  | zero =>
    intro v hv
    have hv0 : v = 0 := by simpa using hv
    subst hv0
    simp [stripZeros]
  | succ w ih =>
    intro v hv
    have hp : (10 : Nat) ^ (w + 1) = 10 ^ w * 10 := pow_succ 10 w
    by_cases h10 : v % 10 = 0
    · have hv' : v / 10 < 10 ^ w := by omega
      obtain ⟨s1, s2, s3, s4⟩ := ih (v / 10) hv'
      simp only [stripZeros, h10, if_pos rfl, if_true]
      refine ⟨s1, ?_, by omega, ?_⟩
      · have hv0 : v = v / 10 * 10 := by omega
        have hw : w + 1 - (stripZeros w (v / 10)).1 =
            (w - (stripZeros w (v / 10)).1) + 1 := by omega
        rw [hw, pow_succ]
        calc v = v / 10 * 10 := hv0
          _ = (stripZeros w (v / 10)).2 * 10 ^ (w - (stripZeros w (v / 10)).1) * 10 := by
              rw [← s2]
          _ = (stripZeros w (v / 10)).2 *
                (10 ^ (w - (stripZeros w (v / 10)).1) * 10) := by ring
      · intro hv0'
        exact s4 (by omega)
    · simp only [stripZeros, if_neg h10]
      refine ⟨hv, by simp, le_refl _, fun _ => by omega⟩

theorem parseFrac_fracPart (ns : Nat) (rest : List Char) (h : ns < 10 ^ 9) :
    parseFrac (fracPart ns ++ 'Z' :: rest) = some (ns, 'Z' :: rest) := by
  by_cases h0 : ns = 0
  · subst h0
    show parseFrac ('Z' :: rest) = some (0, 'Z' :: rest)
    simp only [parseFrac]
    rw [if_neg (by decide)]
  · obtain ⟨s1, s2, s3, s4⟩ := stripZeros_spec 9 ns h
    have hw : 0 < (stripZeros 9 ns).1 := s4 (Nat.pos_of_ne_zero h0)
    have hfrac : fracPart ns ++ 'Z' :: rest =
        '.' :: (padDigits (stripZeros 9 ns).1 (stripZeros 9 ns).2 ++ 'Z' :: rest) := by
      unfold fracPart
      rw [if_neg h0]
      rfl
    rw [hfrac]
    simp only [parseFrac]
    rw [if_pos trivial]
    rw [readDigits_padDigits (stripZeros 9 ns).1 (stripZeros 9 ns).2 ('Z' :: rest) 0 s1]
    rw [readDigits_stop 'Z' rest _ (by decide)]
    have hne : ¬ (stripZeros 9 ns).1 = 0 := by omega
    have hle : (stripZeros 9 ns).1 ≤ 9 := s3
    have hval : (stripZeros 9 ns).2 * 10 ^ (9 - (stripZeros 9 ns).1) = ns := s2.symm
    simp [hne, hle, hval]

theorem daysIn_le_31 (y m : Nat) : daysIn y m ≤ 31 := by
  unfold daysIn
  split
  · split <;> omega
  · split <;> omega

theorem parseRFC3339_formatRFC3339 (t : DateTime) (h : t.valid = true) :
    parseRFC3339 (formatRFC3339 t) = some t := by
  have hv : validRanges t.year t.month t.day t.hour t.minute t.second t.nanos = true := h
  simp only [validRanges, Bool.and_eq_true, decide_eq_true_eq, and_assoc] at hv
  obtain ⟨h1, h2, h3, h4, h5, h6, h7, h8, h9⟩ := hv
  have hdays := daysIn_le_31 t.year t.month
  have ey : ∀ rest, read4 (padDigits 4 t.year ++ rest) = some (t.year, rest) :=
    fun rest => read4_padDigits t.year rest (by omega)
  have emo : ∀ rest, read2 (padDigits 2 t.month ++ rest) = some (t.month, rest) :=
    fun rest => read2_padDigits t.month rest (by omega)
  have ed : ∀ rest, read2 (padDigits 2 t.day ++ rest) = some (t.day, rest) :=
    fun rest => read2_padDigits t.day rest (by omega)
  have eh : ∀ rest, read2 (padDigits 2 t.hour ++ rest) = some (t.hour, rest) :=
    fun rest => read2_padDigits t.hour rest (by omega)
  have emi : ∀ rest, read2 (padDigits 2 t.minute ++ rest) = some (t.minute, rest) :=
    fun rest => read2_padDigits t.minute rest (by omega)
  have es : ∀ rest, read2 (padDigits 2 t.second ++ rest) = some (t.second, rest) :=
    fun rest => read2_padDigits t.second rest (by omega)
  have efr : ∀ rest, parseFrac (fracPart t.nanos ++ 'Z' :: rest) =
      some (t.nanos, 'Z' :: rest) :=
    fun rest => parseFrac_fracPart t.nanos rest (by omega)
  have hvr : validRanges t.year t.month t.day t.hour t.minute t.second t.nanos = true := h
  simp only [parseRFC3339, formatRFC3339, parseRFC3339List, List.append_assoc,
    List.cons_append, List.nil_append, ey, expect_cons_self, emo, ed, eh, emi, es, efr]
  simp [hvr]

/-- C8: serializing an `Envelope` whose payload is a valid opaque JSON
blob and whose timestamp lies in the RFC3339 wire range, then
deserializing, reproduces `event_id`, `event_type`, `occurred_at` (the
model carries timestamps at exactly the wire precision) and the
payload exactly. -/
theorem c8_envelope_roundtrip (e : Envelope) (h : e.occurredAt.valid = true) :
    unmarshalEnvelope (marshalEnvelope e) = some e := by
  have hp := parseRFC3339_formatRFC3339 e.occurredAt h
  simp [marshalEnvelope, unmarshalEnvelope, unmarshalEnvelopeFields,
    unmarshalEnvelopeField, hp]

/-- Witness for C8 at a concrete envelope with a fractional-second
timestamp. -/
theorem c8_envelope_roundtrip_witness :
    witnessEnvelope.occurredAt.valid = true ∧
    unmarshalEnvelope (marshalEnvelope witnessEnvelope) = some witnessEnvelope :=
  ⟨by decide, c8_envelope_roundtrip witnessEnvelope (by decide)⟩

/-- C9: a consumer never installs a retry processor unless the DLQ is
enabled with a non-empty topic; with `RetryCount > 0` but the DLQ
disabled (or its topic empty) the consumer takes the direct path,
which invokes the handler exactly once per message with no backoff, no
DLQ activity, and a merely-surfaced (logged by the read loop) error. -/
theorem c9_direct_path (rel : ReliabilityConfig) (producerOk : Bool) (msg : KMessage)
    (hr : Option GoError)
    (_hrc : 0 < rel.RetryCount)
    (hdis : rel.DLQEnabled = false ∨ rel.DLQTopic = "")
    (henv : (unmarshalEnvelope msg.value).isSome = true) :
    newConsumerHasRetryProcessor rel producerOk = false ∧
    (∀ rel' pOk', newConsumerHasRetryProcessor rel' pOk' = true →
      rel'.DLQEnabled = true ∧ ¬ rel'.DLQTopic = "") ∧
    processMessage false (NewRetryProcessor rel) msg (fun _ => hr) (fun _ => false) "" none =
      processMessageDirect msg hr ∧
    (processMessageDirect msg hr).handleCalls = 1 ∧
    (processMessageDirect msg hr).backoffs = [] ∧
    (processMessageDirect msg hr).published = [] ∧
    (processMessageDirect msg hr).dlqArgs = [] ∧
    (processMessageDirect msg hr).result = hr.map (wrapGoErr "handler failed: ") := by
  rcases henv' : unmarshalEnvelope msg.value with _ | env
  · rw [henv'] at henv; simp at henv
  · refine ⟨?_, ?_, rfl, ?_, ?_, ?_, ?_, ?_⟩
    · rcases hdis with hd | hd <;> simp [newConsumerHasRetryProcessor, hd, ite_self]
    · intro rel' pOk' hT
      by_cases hE : rel'.DLQEnabled = true
      · refine ⟨hE, ?_⟩
        intro hTo
        simp [newConsumerHasRetryProcessor, hE, hTo, ite_self] at hT
      · have hE' : rel'.DLQEnabled = false := by
          revert hE; cases rel'.DLQEnabled <;> simp
        simp [newConsumerHasRetryProcessor, hE', ite_self] at hT
    · cases hr <;> simp [processMessageDirect, henv']
    · cases hr <;> simp [processMessageDirect, henv']
    · cases hr <;> simp [processMessageDirect, henv']
    · cases hr <;> simp [processMessageDirect, henv']
    · cases hr <;> simp [processMessageDirect, henv']

/-- Witness for C9 at a concrete disabled-DLQ config with
`RetryCount = 3`. -/
theorem c9_direct_path_witness :
    (0 : Nat) < disabledCfg.RetryCount ∧
    disabledCfg.DLQEnabled = false ∧
    newConsumerHasRetryProcessor disabledCfg true = false ∧
    (processMessageDirect witnessMsg (some boomErr)).handleCalls = 1 ∧
    (processMessageDirect witnessMsg (some boomErr)).published = [] ∧
    (processMessageDirect witnessMsg (some boomErr)).result =
      (some boomErr).map (wrapGoErr "handler failed: ") := by
  have h := c9_direct_path disabledCfg true witnessMsg (some boomErr) (by decide)
    (Or.inl rfl) rfl
  exact ⟨by decide, rfl, h.1, h.2.2.2.1, h.2.2.2.2.2.1, h.2.2.2.2.2.2.2⟩

end Shared
